import Mathlib

/-!
# Golang-dolar: the quote server and its client

A shallow embedding of `server/main.go` and `client/main.go`.

* Time is a natural number of nanoseconds (the unit of `time.Duration`).  The clock
  advances only at the two blocking operations of the server (the upstream call and the
  storage write) and at the one blocking operation of the client (the call to the
  server); every other statement is instantaneous.
* A `context.Context` is represented by its deadline.
* The outside world (upstream provider, storage, server as seen by the client, file
  system) is an explicit argument that says how long each blocking operation would take
  and what it would answer.
* JSON text is represented by its parsed value; a body that is not JSON is a separate
  case carrying the decoder's error.
-/

namespace GolangDolar

/-! ## Time and contexts -/

/-- The constant `time.Millisecond`; times and durations are natural numbers of
nanoseconds. -/
def Millisecond : Nat := 1000000

/-- A `context.Context`, represented by its deadline (`none`: no deadline). -/
structure Context where
  deadline : Option Nat
  deriving DecidableEq, Repr

/-- The call `context.WithTimeout(parent, timeout)` made at time `now`: the child keeps the
parent's deadline when that one is earlier than `now + timeout`. -/
def Context.WithTimeout (parent : Context) (now : Nat) (timeout : Nat) : Context :=
  match parent.deadline with
  | some cur => if cur < now + timeout then parent else ⟨some (now + timeout)⟩
  | none => ⟨some (now + timeout)⟩

/-- The earlier of an optional deadline and a time. -/
def earliest (d : Option Nat) (t : Nat) : Nat :=
  match d with
  | some cur => if cur < t then cur else t
  | none => t

/-- The moment a blocking operation returns: it started at `start`, would need `latency`
to complete, and is cancelled at `deadline`.  It completes only strictly before the
deadline; a deadline already in the past cancels it at once. -/
def finishTime (start : Nat) (latency : Nat) (deadline : Nat) : Nat :=
  if start + latency < deadline then start + latency
  else if start < deadline then deadline else start

/-! ## JSON values -/

/-- A parsed JSON value; numbers keep their literal text. -/
inductive Json where
  | null
  | bool (b : Bool)
  | num (literal : String)
  | str (s : String)
  | arr (items : List Json)
  | obj (members : List (String × Json))

/-- What the remote end put in the response body. -/
inductive Body where
  | malformed (err : String)
  | json (v : Json)

/-- The outcome of one HTTP round trip, were it left to complete. -/
inductive RoundTrip where
  | failure (err : String)
  | response (body : Body)

/-- The behaviour of a remote end for one request: after `latency` it has delivered
`outcome` (for a response: headers and whole body). -/
structure Remote where
  latency : Nat
  outcome : RoundTrip

/-- The call `client.Do(req)` of an `http.Client{Timeout: timeout}` at time `now` with a request
bound to `ctx`, together with the reading of the body, which the same timer covers.  The
call is cancelled at the earlier of the context's deadline and `now + timeout`.  Returns
the body or the transport error, and the time of return. -/
def clientDo (timeout : Nat) (ctx : Context) (now : Nat) (remote : Remote) :
    Except String Body × Nat :=
  let deadline := earliest ctx.deadline (now + timeout)
  if now + remote.latency < deadline then
    match remote.outcome with
    | .failure err => (.error err, now + remote.latency)
    | .response body => (.ok body, now + remote.latency)
  else
    (.error "context deadline exceeded", finishTime now remote.latency deadline)

/-! ## Field-name matching of `encoding/json` -/

/-- Case folding as far as it matters for ASCII names: the only non-ASCII runes that fold
to an ASCII letter are U+212A (Kelvin sign, to `k`) and U+017F (long s, to `s`). -/
def foldRune (c : Char) : Char :=
  if c = Char.ofNat 0x212A then 'k'
  else if c = Char.ofNat 0x017F then 's'
  else if 'A' ≤ c ∧ c ≤ 'Z' then Char.ofNat (c.toNat + 32)
  else c

/-- Equality of a JSON key and a field name under case folding. -/
def equalFold (name key : String) : Bool :=
  name.toList.map foldRune == key.toList.map foldRune

/-- The decoder's string target: a JSON string is stored, `null` leaves the target as it
is, anything else is an `UnmarshalTypeError`. -/
def decodeString (cur : String) : Json → Except String String
  | .str s => .ok s
  | .null => .ok cur
  | _ => .error "json: cannot unmarshal value into Go value of type string"

/-- A hexadecimal digit, lower case, as in the encoder's table `hex`. -/
def hexDigit (n : Nat) : Char :=
  if n < 10 then Char.ofNat (48 + n) else Char.ofNat (87 + n)

/-- The quotation mark. -/
def quoteRune : Char := Char.ofNat 0x22

/-- The reverse solidus. -/
def backslashRune : Char := Char.ofNat 0x5C

/-- The encoder's treatment of one rune of a string, with HTML escaping on (the default of
`json.NewEncoder`): quotation mark and backslash get a backslash, the control characters
their short or `\u00XX` form, the characters `<`, `>`, `&` their `\u00XX` form, U+2028 and
U+2029 their `\u202X` form; every other rune is copied.  (The short forms `\b` and `\f` are
those of Go 1.22 and later; earlier releases write `\u0008` and `\u000c`.) -/
def escapeRune (c : Char) : List Char :=
  if c = backslashRune ∨ c = quoteRune then [backslashRune, c]
  else if c = Char.ofNat 0x08 then [backslashRune, 'b']
  else if c = Char.ofNat 0x0C then [backslashRune, 'f']
  else if c = Char.ofNat 0x0A then [backslashRune, 'n']
  else if c = Char.ofNat 0x0D then [backslashRune, 'r']
  else if c = Char.ofNat 0x09 then [backslashRune, 't']
  else if c.toNat < 0x20 ∨ c = '<' ∨ c = '>' ∨ c = '&' then
    [backslashRune, 'u', '0', '0', hexDigit (c.toNat / 16), hexDigit (c.toNat % 16)]
  else if c = Char.ofNat 0x2028 ∨ c = Char.ofNat 0x2029 then
    [backslashRune, 'u', '2', '0', '2', hexDigit (c.toNat % 16)]
  else [c]

/-- The JSON text of a string value: the escaped runes between quotation marks. -/
def encodeString (s : String) : String :=
  String.mk (quoteRune :: (s.toList.flatMap escapeRune ++ [quoteRune]))

/-- The text that `json.NewEncoder(w).Encode(s)` writes for a string `s`: the JSON text
followed by a newline. -/
def Encode (s : String) : String :=
  encodeString s ++ "\n"

/-! ## Column lists of SQL statements -/

/-- White space inside an SQL statement. -/
def isBlank (c : Char) : Bool :=
  c = ' ' ∨ c = Char.ofNat 0x0A ∨ c = Char.ofNat 0x09 ∨ c = Char.ofNat 0x0D

/-- The text after the first opening parenthesis. -/
def afterOpen : List Char → List Char
  | [] => []
  | c :: cs => if c = '(' then cs else afterOpen cs

/-- The text before the first closing parenthesis. -/
def untilClose : List Char → List Char
  | [] => []
  | c :: cs => if c = ')' then [] else c :: untilClose cs

/-- The comma-separated items of a text. -/
def splitComma : List Char → List (List Char)
  | [] => [[]]
  | c :: cs =>
    match splitComma cs with
    | [] => [[c]]
    | item :: items => if c = ',' then [] :: item :: items else (c :: item) :: items

/-- The first word of an item: leading blanks dropped, then up to the next blank. -/
def firstWord (item : List Char) : String :=
  String.mk ((item.dropWhile isBlank).takeWhile (fun c => !isBlank c))

/-- The column names of the first parenthesised list of an SQL statement: the column list
of an `INSERT`, the column definitions of a `CREATE TABLE`. -/
def columnNames (sql : String) : List String :=
  (splitComma (untilClose (afterOpen sql.toList))).map firstWord

/-! ## Storage -/

/-- A row of the table `cotacoes`: the identifier and the value of each named column. -/
structure Row where
  id : Nat
  values : List (String × String)
  deriving DecidableEq, Repr

/-- The contents of the database behind the `*sql.DB` handle. -/
structure DB where
  rows : List Row
  deriving DecidableEq, Repr

/-- The identifier SQLite assigns to a new row of an `INTEGER PRIMARY KEY` table: one more
than the largest in use. -/
def DB.nextId (db : DB) : Nat :=
  (db.rows.map Row.id).foldl max 0 + 1

/-- The behaviour of the storage layer for one statement: how long it would take and
whether it would fail on its own. -/
structure Storage where
  latency : Nat
  failure : Option String

/-- The statement once it is allowed to run to completion: the storage's own failure, a
mismatch between placeholders and arguments, or one appended row that binds the i-th
argument to the i-th column of the statement's column list. -/
def execInsert (storage : Storage) (db : DB) (query : String) (args : List String) :
    Option String × DB :=
  match storage.failure with
  | some err => (some err, db)
  | none =>
    if (columnNames query).length = args.length then
      (none, ⟨db.rows ++ [⟨db.nextId, (columnNames query).zip args⟩]⟩)
    else (some "sql: wrong number of arguments", db)

/-- The call `db.ExecContext(ctx, query, args...)` for an `INSERT`, made at time `now`.  A
context that expires before the statement completes cancels it and nothing is written.
Returns the error if any, the database afterwards and the time of return. -/
def ExecContext (ctx : Context) (now : Nat) (storage : Storage) (db : DB)
    (query : String) (args : List String) : Option String × DB × Nat :=
  match ctx.deadline with
  | some deadline =>
    if now + storage.latency < deadline then
      ((execInsert storage db query args).1, (execInsert storage db query args).2,
        now + storage.latency)
    else (some "context deadline exceeded", db, finishTime now storage.latency deadline)
  | none =>
    ((execInsert storage db query args).1, (execInsert storage db query args).2,
      now + storage.latency)

/-! ## The response writer -/

/-- An `http.ResponseWriter`: the header map, the status line once written, the body. -/
structure ResponseWriter where
  header : List (String × String)
  status : Option Nat
  body : String
  deriving DecidableEq, Repr

/-- A response writer as the server hands it to a handler. -/
def ResponseWriter.fresh : ResponseWriter := ⟨[], none, ""⟩

/-- The call `w.Header().Del(key)`. -/
def ResponseWriter.headerDel (w : ResponseWriter) (key : String) : ResponseWriter :=
  match w.status with
  | some _ => w
  | none => { w with header := w.header.filter (fun kv => kv.1 != key) }

/-- The call `w.Header().Set(key, value)`; once the status line is written the header no
longer reaches the wire. -/
def ResponseWriter.headerSet (w : ResponseWriter) (key value : String) : ResponseWriter :=
  match w.status with
  | some _ => w
  | none => { w with header := w.header.filter (fun kv => kv.1 != key) ++ [(key, value)] }

/-- The call `w.WriteHeader(code)`; a second call is ignored. -/
def ResponseWriter.WriteHeader (w : ResponseWriter) (code : Nat) : ResponseWriter :=
  match w.status with
  | some _ => w
  | none => { w with status := some code }

/-- The call `w.Write(data)`: the first write sends status 200 when none was sent. -/
def ResponseWriter.Write (w : ResponseWriter) (data : String) : ResponseWriter :=
  { w.WriteHeader 200 with body := (w.WriteHeader 200).body ++ data }

/-- The constant `http.StatusInternalServerError`. -/
def StatusInternalServerError : Nat := 500

/-- The constant `http.StatusOK`. -/
def StatusOK : Nat := 200

/-- The function `http.Error(w, error, code)`: plain-text headers, the status, the message
and a newline. -/
def httpError (w : ResponseWriter) (error : String) (code : Nat) : ResponseWriter :=
  ((((w.headerDel "Content-Length").headerSet "Content-Type" "text/plain; charset=utf-8").headerSet
    "X-Content-Type-Options" "nosniff").WriteHeader code).Write (error ++ "\n")

/-! ## The server, `server/main.go` -/

namespace Server

/-- The constant `apiURL`. -/
def apiURL : String := "https://economia.awesomeapi.com.br/json/last/USD-BRL"

/-- The constant `apiTimeout`. -/
def apiTimeout : Nat := 200 * Millisecond

/-- The constant `dbTimeout`. -/
def dbTimeout : Nat := 10 * Millisecond

/-- The constant `clientTimeout`. -/
def clientTimeout : Nat := 300 * Millisecond

/-- The anonymous struct type of the field `USDBRL` of `Cotacao`. -/
structure Quote where
  Ask : String
  Bid : String
  Code : String
  Codein : String
  CreateDate : String
  High : String
  Low : String
  Name : String
  PctChange : String
  Timestamp : String
  VarBid : String
  deriving DecidableEq, Repr

/-- The struct type `Cotacao`. -/
structure Cotacao where
  USDBRL : Quote
  deriving DecidableEq, Repr

/-- The zero value `Cotacao{}`. -/
def Cotacao.zero : Cotacao := ⟨⟨"", "", "", "", "", "", "", "", "", "", ""⟩⟩

/-- The fields of the quote struct, in declaration order. -/
inductive Field where
  | Ask | Bid | Code | Codein | CreateDate | High | Low | Name | PctChange | Timestamp | VarBid
  deriving DecidableEq, Repr

/-- All fields, in declaration order. -/
def Field.all : List Field :=
  [.Ask, .Bid, .Code, .Codein, .CreateDate, .High, .Low, .Name, .PctChange, .Timestamp, .VarBid]

/-- The `json:"..."` tag of a field. -/
def Field.tag : Field → String
  | .Ask => "ask"
  | .Bid => "bid"
  | .Code => "code"
  | .Codein => "codein"
  | .CreateDate => "create_date"
  | .High => "high"
  | .Low => "low"
  | .Name => "name"
  | .PctChange => "pctChange"
  | .Timestamp => "timestamp"
  | .VarBid => "varBid"

/-- Reading a field. -/
def Quote.get (q : Quote) : Field → String
  | .Ask => q.Ask
  | .Bid => q.Bid
  | .Code => q.Code
  | .Codein => q.Codein
  | .CreateDate => q.CreateDate
  | .High => q.High
  | .Low => q.Low
  | .Name => q.Name
  | .PctChange => q.PctChange
  | .Timestamp => q.Timestamp
  | .VarBid => q.VarBid

/-- Assigning a field. -/
def Quote.set (q : Quote) (f : Field) (s : String) : Quote :=
  match f with
  | .Ask => { q with Ask := s }
  | .Bid => { q with Bid := s }
  | .Code => { q with Code := s }
  | .Codein => { q with Codein := s }
  | .CreateDate => { q with CreateDate := s }
  | .High => { q with High := s }
  | .Low => { q with Low := s }
  | .Name => { q with Name := s }
  | .PctChange => { q with PctChange := s }
  | .Timestamp => { q with Timestamp := s }
  | .VarBid => { q with VarBid := s }

/-- The field a JSON key designates: the one whose tag is the key, else the first one
whose tag equals the key under case folding; `none` for an unknown key. -/
def findField (key : String) : Option Field :=
  match Field.all.find? (fun f => f.tag == key) with
  | some f => some f
  | none => Field.all.find? (fun f => equalFold f.tag key)

/-- One member of the inner JSON object decoded into the quote struct; unknown keys are
skipped whatever their value. -/
def decodeMember (q : Quote) (member : String × Json) : Except String Quote :=
  match findField member.1 with
  | none => .ok q
  | some f =>
    match decodeString (q.get f) member.2 with
    | .ok s => .ok (q.set f s)
    | .error err => .error err

/-- The members of the inner object, decoded in order; the first type error is the
decoder's error. -/
def decodeMembers (q : Quote) : List (String × Json) → Except String Quote
  | [] => .ok q
  | member :: rest =>
    match decodeMember q member with
    | .ok q' => decodeMembers q' rest
    | .error err => .error err

/-- The decoder's struct target for the quote: an object fills the fields it names, `null`
leaves the struct as it is, anything else is an `UnmarshalTypeError`. -/
def decodeQuote (q : Quote) : Json → Except String Quote
  | .obj members => decodeMembers q members
  | .null => .ok q
  | _ => .error "json: cannot unmarshal value into Go struct field Cotacao.USDBRL"

/-- The members of the outer object: those keyed `USDBRL` (exactly or under case folding)
are decoded into the field `USDBRL`, the others skipped. -/
def decodeOuter (c : Cotacao) : List (String × Json) → Except String Cotacao
  | [] => .ok c
  | member :: rest =>
    if member.1 == "USDBRL" || equalFold "USDBRL" member.1 then
      match decodeQuote c.USDBRL member.2 with
      | .ok q => decodeOuter ⟨q⟩ rest
      | .error err => .error err
    else decodeOuter c rest

/-- The call `json.NewDecoder(resp.Body).Decode(&cotacao)` on a zero `cotacao`. -/
def decodeCotacao : Body → Except String Cotacao
  | .malformed err => .error err
  | .json (.obj members) => decodeOuter Cotacao.zero members
  | .json .null => .ok Cotacao.zero
  | .json _ => .error "json: cannot unmarshal value into Go value of type main.Cotacao"

/-- The world of one request to the server: whether `http.NewRequestWithContext` fails,
how the upstream provider behaves, how the storage behaves. -/
structure World where
  newRequestErr : Option String
  upstream : Remote
  storage : Storage

/-- An operation the server issued to the outside, with its start, the deadline it ran
under and its return. -/
inductive Call where
  | get (url : String) (start deadline finish : Nat)
  | exec (query : String) (args : List String) (start : Nat) (deadline : Option Nat)
      (finish : Nat)
  deriving DecidableEq, Repr

/-- Whether a call is a storage statement. -/
def Call.isExec : Call → Bool
  | .exec _ _ _ _ _ => true
  | .get _ _ _ _ => false

/-- Whether a call is an upstream request. -/
def Call.isGet : Call → Bool
  | .get _ _ _ _ => true
  | .exec _ _ _ _ _ => false

/-- The result of `getDolarPrice`, the time of its return, and the calls it issued. -/
structure Fetched where
  result : Except String Cotacao
  finish : Nat
  calls : List Call

/-- The function `getDolarPrice(ctx)`, called at time `now`. -/
def getDolarPrice (ctx : Context) (now : Nat) (world : World) : Fetched :=
  match world.newRequestErr with
  | some err => ⟨.error ("erro ao criar requisição HTTP: " ++ err), now, []⟩
  | none =>
    let call := Call.get apiURL now (earliest ctx.deadline (now + apiTimeout))
      (clientDo apiTimeout ctx now world.upstream).2
    match (clientDo apiTimeout ctx now world.upstream).1 with
    | .error err =>
      ⟨.error ("erro ao realizar requisição HTTP: " ++ err),
        (clientDo apiTimeout ctx now world.upstream).2, [call]⟩
    | .ok body =>
      match decodeCotacao body with
      | .error err =>
        ⟨.error ("erro ao decodificar resposta JSON: " ++ err),
          (clientDo apiTimeout ctx now world.upstream).2, [call]⟩
      | .ok cotacao => ⟨.ok cotacao, (clientDo apiTimeout ctx now world.upstream).2, [call]⟩

/-- The statement of `saveDatabase`. -/
def insertQuery : String :=
  "INSERT INTO cotacoes (code, codein, name, high, low, varBid, pctChange, bid, ask, timestamp, create_date) VALUES (?, ?, ?, ?, ?, ?, ?, ?, ?, ?, ?)"

/-- The arguments `saveDatabase` passes to the statement, in order. -/
def insertArgs (cotacao : Cotacao) : List String :=
  [cotacao.USDBRL.Code, cotacao.USDBRL.Codein, cotacao.USDBRL.Name, cotacao.USDBRL.High,
    cotacao.USDBRL.Low, cotacao.USDBRL.VarBid, cotacao.USDBRL.PctChange, cotacao.USDBRL.Bid,
    cotacao.USDBRL.Ask, cotacao.USDBRL.Timestamp, cotacao.USDBRL.CreateDate]

/-- The result of `saveDatabase`: the error if any, the database afterwards, the time of
return, the call issued. -/
structure Saved where
  err : Option String
  db : DB
  finish : Nat
  calls : List Call

/-- The function `saveDatabase(ctx, db, cotacao)`, called at time `now`. -/
def saveDatabase (ctx : Context) (db : DB) (cotacao : Cotacao) (now : Nat)
    (storage : Storage) : Saved :=
  let r := ExecContext ctx now storage db insertQuery (insertArgs cotacao)
  let call := Call.exec insertQuery (insertArgs cotacao) now ctx.deadline r.2.2
  match r.1 with
  | some err => ⟨some ("erro ao salvar cotação no banco de dados: " ++ err), r.2.1, r.2.2, [call]⟩
  | none => ⟨none, r.2.1, r.2.2, [call]⟩

/-- The statement of `setupDatabase` that creates the table. -/
def createTable : String :=
  "CREATE TABLE IF NOT EXISTS cotacoes \n\t(id INTEGER PRIMARY KEY, \n\tcode TEXT, \n\tcodein TEXT, \n\tname TEXT,\n\thigh TEXT, \n\tlow TEXT, \n\tvarBid TEXT, \n\tpctChange TEXT, \n\tbid TEXT, \n\task TEXT, \n\ttimestamp TEXT, \n\tcreate_date TEXT)"

/-- An inbound `*http.Request`, as far as the handler reads it: its context. -/
structure Request where
  ctx : Context

/-- What one run of the handler leaves behind: the response writer, the database, the
log lines, the calls issued in order, and the time at which it wrote the response and
returned. -/
structure Run where
  w : ResponseWriter
  db : DB
  log : List String
  calls : List Call
  finish : Nat

/-- The function `handleCotacao(w, r, db)`, called at time `now`. -/
def handleCotacao (w : ResponseWriter) (r : Request) (db : DB) (now : Nat)
    (world : World) : Run :=
  let ctx := r.ctx.WithTimeout now clientTimeout
  let fetched := getDolarPrice ctx now world
  match fetched.result with
  | .error err =>
    ⟨httpError w "Erro ao obter cotação" StatusInternalServerError, db,
      ["erro ao obter cotação: " ++ err ++ "\n"], fetched.calls, fetched.finish⟩
  | .ok cotacao =>
    let ctx := r.ctx.WithTimeout fetched.finish dbTimeout
    let saved := saveDatabase ctx db cotacao fetched.finish world.storage
    let log :=
      match saved.err with
      | some err => ["erro ao salvar cotação no banco de dados: " ++ err ++ "\n"]
      | none => []
    ⟨(w.headerSet "Content-Type" "application/json").Write (Encode cotacao.USDBRL.Bid),
      saved.db, log, fetched.calls ++ saved.calls, saved.finish⟩

end Server

/-! ## The client, `client/main.go` -/

namespace Client

/-- The constant `clientTimeout`. -/
def clientTimeout : Nat := 300 * Millisecond

/-- The files of the working directory: name and content. -/
abbrev Files := List (String × String)

/-- The world of one run of the client: whether `http.NewRequestWithContext` fails, how the
server behaves, whether the operating system refuses the file write. -/
structure World where
  newRequestErr : Option String
  server : Remote
  writeErr : Option String

/-- A request the client issued, with its start, the deadline it ran under and its
return. -/
structure Request where
  url : String
  start : Nat
  deadline : Nat
  finish : Nat
  deriving DecidableEq, Repr

/-- A call of `os.WriteFile`. -/
structure FileWrite where
  name : String
  data : String
  perm : Nat
  deriving DecidableEq, Repr

/-- The result of `fetchCotacaoByServer`, the time of its return, the requests issued. -/
structure Fetched where
  result : Except String String
  finish : Nat
  requests : List Request

/-- What one run of the client leaves behind: the lines printed, the files, the requests
and the file writes issued. -/
structure Run where
  stdout : List String
  files : Files
  requests : List Request
  writes : List FileWrite

end Client

/-! ## Sample worlds -/

/-- An upstream body whose `USDBRL` object holds the given members, each a field's tag
with a string value, in the given order. -/
def quoteBody (members : List (Server.Field × String)) : Body :=
  .json (.obj [("USDBRL", .obj (members.map (fun m => (m.1.tag, Json.str m.2))))])

/-- The upstream body of the spec's scenario: a quote with bid `5.43`. -/
def sampleBody : Body :=
  .json (.obj [("USDBRL", .obj [("code", .str "USD"), ("codein", .str "BRL"),
    ("bid", .str "5.43"), ("ask", .str "5.44")])])

/-- An upstream body whose quote has no bid. -/
def noBidBody : Body :=
  .json (.obj [("USDBRL", .obj [("code", .str "USD"), ("ask", .str "5.44")])])

/-- The quote decoded from `sampleBody`. -/
def sampleCotacao : Server.Cotacao :=
  ⟨⟨"5.44", "5.43", "USD", "BRL", "", "", "", "", "", "", ""⟩⟩

/-- Upstream answers `body` after `upstreamMs` milliseconds, the storage takes `storageMs`
milliseconds and fails with `failure` if given. -/
def sampleWorld (body : Body) (upstreamMs storageMs : Nat) (failure : Option String) :
    Server.World :=
  ⟨none, ⟨upstreamMs * Millisecond, .response body⟩, ⟨storageMs * Millisecond, failure⟩⟩

/-- An inbound request whose context has no deadline. -/
def plainRequest : Server.Request := ⟨⟨none⟩⟩

/-- A server that answers the client with `body` after `serverMs` milliseconds. -/
def sampleServer (body : Body) (serverMs : Nat) : Client.World :=
  ⟨none, ⟨serverMs * Millisecond, .response body⟩, none⟩

/-! ## Deadlines -/

theorem withTimeout_deadline (ctx : Context) (now : Nat) (timeout : Nat) :
    (ctx.WithTimeout now timeout).deadline = some (earliest ctx.deadline (now + timeout)) := by
  unfold Context.WithTimeout earliest
  cases h : ctx.deadline with
  | none => rfl
  | some cur =>
    simp only
    split
    · exact h
    · rfl

theorem earliest_withTimeout (ctx : Context) (now : Nat) (outer inner : Nat)
    (h : inner ≤ outer) :
    earliest (ctx.WithTimeout now outer).deadline (now + inner)
      = earliest ctx.deadline (now + inner) := by
  rw [withTimeout_deadline]
  unfold earliest
  cases ctx.deadline with
  | none =>
    simp only
    split <;> omega
  | some cur =>
    simp only
    split <;> split <;> (try split) <;> omega

theorem clientDo_ok (timeout : Nat) (ctx : Context) (now : Nat) (remote : Remote)
    (body : Body) (h : (clientDo timeout ctx now remote).1 = .ok body) :
    now + remote.latency < earliest ctx.deadline (now + timeout)
      ∧ remote.outcome = .response body
      ∧ (clientDo timeout ctx now remote).2 = now + remote.latency := by
  by_cases hlt : now + remote.latency < earliest ctx.deadline (now + timeout)
  · cases ho : remote.outcome with
    | failure err => simp [clientDo, hlt, ho] at h
    | response b =>
      simp [clientDo, hlt, ho] at h
      subst h
      refine ⟨hlt, rfl, ?_⟩
      simp [clientDo, hlt, ho]
  · simp [clientDo, hlt] at h

namespace Server

theorem apiTimeout_le_clientTimeout : apiTimeout ≤ clientTimeout := by decide

/-- The result of `getDolarPrice` does not depend on the storage. -/
theorem getDolarPrice_storage (ctx : Context) (now : Nat) (world : World)
    (storage : Storage) :
    getDolarPrice ctx now { world with storage := storage } = getDolarPrice ctx now world :=
  rfl

/-- What a successful `getDolarPrice` went through: a request was built, the upstream
answered in time, and its body decoded. -/
theorem getDolarPrice_ok (ctx : Context) (now : Nat) (world : World) (cotacao : Cotacao)
    (h : (getDolarPrice ctx now world).result = .ok cotacao) :
    world.newRequestErr = none
      ∧ now + world.upstream.latency < earliest ctx.deadline (now + apiTimeout)
      ∧ (∃ body, world.upstream.outcome = .response body ∧ decodeCotacao body = .ok cotacao)
      ∧ (getDolarPrice ctx now world).finish = now + world.upstream.latency
      ∧ (getDolarPrice ctx now world).calls
          = [Call.get apiURL now (earliest ctx.deadline (now + apiTimeout))
              (now + world.upstream.latency)] := by
  cases hn : world.newRequestErr with
  | some err => simp [getDolarPrice, hn] at h
  | none =>
    cases hd : (clientDo apiTimeout ctx now world.upstream).1 with
    | error err => simp [getDolarPrice, hn, hd] at h
    | ok body =>
      have hb := clientDo_ok apiTimeout ctx now world.upstream body hd
      cases hj : decodeCotacao body with
      | error err => simp [getDolarPrice, hn, hd, hj] at h
      | ok c =>
        simp [getDolarPrice, hn, hd, hj] at h
        subst h
        refine ⟨rfl, hb.1, ⟨body, hb.2.1, hj⟩, ?_, ?_⟩
        · simp [getDolarPrice, hn, hd, hj, hb.2.2]
        · simp [getDolarPrice, hn, hd, hj, hb.2.2]

/-- The converse: an upstream that answers in time with a body that decodes makes
`getDolarPrice` succeed. -/
theorem getDolarPrice_of_response (ctx : Context) (now : Nat) (world : World) (body : Body)
    (cotacao : Cotacao) (hn : world.newRequestErr = none)
    (ht : now + world.upstream.latency < earliest ctx.deadline (now + apiTimeout))
    (ho : world.upstream.outcome = .response body) (hd : decodeCotacao body = .ok cotacao) :
    (getDolarPrice ctx now world).result = .ok cotacao := by
  unfold getDolarPrice
  simp only [hn]
  have hc : (clientDo apiTimeout ctx now world.upstream).1 = .ok body := by
    unfold clientDo
    simp only
    rw [if_pos ht, ho]
  simp only [hc, hd]

/-- The handler after a successful fetch. -/
theorem handleCotacao_ok (w : ResponseWriter) (r : Request) (db : DB) (now : Nat)
    (world : World) (cotacao : Cotacao)
    (h : (getDolarPrice (r.ctx.WithTimeout now clientTimeout) now world).result = .ok cotacao) :
    handleCotacao w r db now world
      = ⟨(w.headerSet "Content-Type" "application/json").Write (Encode cotacao.USDBRL.Bid),
          (saveDatabase (r.ctx.WithTimeout
            (getDolarPrice (r.ctx.WithTimeout now clientTimeout) now world).finish dbTimeout)
            db cotacao (getDolarPrice (r.ctx.WithTimeout now clientTimeout) now world).finish
            world.storage).db,
          (match (saveDatabase (r.ctx.WithTimeout
            (getDolarPrice (r.ctx.WithTimeout now clientTimeout) now world).finish dbTimeout)
            db cotacao (getDolarPrice (r.ctx.WithTimeout now clientTimeout) now world).finish
            world.storage).err with
          | some err => ["erro ao salvar cotação no banco de dados: " ++ err ++ "\n"]
          | none => []),
          (getDolarPrice (r.ctx.WithTimeout now clientTimeout) now world).calls
            ++ (saveDatabase (r.ctx.WithTimeout
            (getDolarPrice (r.ctx.WithTimeout now clientTimeout) now world).finish dbTimeout)
            db cotacao (getDolarPrice (r.ctx.WithTimeout now clientTimeout) now world).finish
            world.storage).calls,
          (saveDatabase (r.ctx.WithTimeout
            (getDolarPrice (r.ctx.WithTimeout now clientTimeout) now world).finish dbTimeout)
            db cotacao (getDolarPrice (r.ctx.WithTimeout now clientTimeout) now world).finish
            world.storage).finish⟩ := by
  unfold handleCotacao
  simp only [h]

/-- The handler after a failed fetch. -/
theorem handleCotacao_error (w : ResponseWriter) (r : Request) (db : DB) (now : Nat)
    (world : World) (err : String)
    (h : (getDolarPrice (r.ctx.WithTimeout now clientTimeout) now world).result = .error err) :
    handleCotacao w r db now world
      = ⟨httpError w "Erro ao obter cotação" StatusInternalServerError, db,
          ["erro ao obter cotação: " ++ err ++ "\n"],
          (getDolarPrice (r.ctx.WithTimeout now clientTimeout) now world).calls,
          (getDolarPrice (r.ctx.WithTimeout now clientTimeout) now world).finish⟩ := by
  unfold handleCotacao
  simp only [h]

theorem saveDatabase_calls (ctx : Context) (db : DB) (cotacao : Cotacao) (now : Nat)
    (storage : Storage) :
    (saveDatabase ctx db cotacao now storage).calls
      = [Call.exec insertQuery (insertArgs cotacao) now ctx.deadline
          (saveDatabase ctx db cotacao now storage).finish] := by
  unfold saveDatabase
  simp only
  split <;> rfl

theorem fresh_success_writer (data : String) :
    (ResponseWriter.fresh.headerSet "Content-Type" "application/json").Write data
      = ⟨[("Content-Type", "application/json")], some StatusOK, data⟩ := by
  simp [ResponseWriter.fresh, ResponseWriter.headerSet, ResponseWriter.Write,
    ResponseWriter.WriteHeader, StatusOK]

theorem fresh_error_writer (message : String) (code : Nat) :
    httpError ResponseWriter.fresh message code
      = ⟨[("Content-Type", "text/plain; charset=utf-8"), ("X-Content-Type-Options", "nosniff")],
          some code, message ++ "\n"⟩ := by
  simp [httpError, ResponseWriter.fresh, ResponseWriter.headerSet, ResponseWriter.headerDel,
    ResponseWriter.Write, ResponseWriter.WriteHeader]

theorem getDolarPrice_calls (ctx : Context) (now : Nat) (world : World) :
    (world.newRequestErr ≠ none ∧ (getDolarPrice ctx now world).calls = [])
      ∨ (world.newRequestErr = none ∧ (getDolarPrice ctx now world).calls
          = [Call.get apiURL now (earliest ctx.deadline (now + apiTimeout))
              (getDolarPrice ctx now world).finish]) := by
  cases hn : world.newRequestErr with
  | some err =>
    left
    simp [getDolarPrice, hn]
  | none =>
    right
    refine ⟨rfl, ?_⟩
    unfold getDolarPrice
    simp only [hn]
    split
    · rfl
    · split <;> rfl

theorem insertQuery_columns :
    columnNames insertQuery
      = ["code", "codein", "name", "high", "low", "varBid", "pctChange", "bid", "ask",
          "timestamp", "create_date"] := by
  decide

set_option maxRecDepth 4000 in
theorem createTable_columns : columnNames createTable = "id" :: columnNames insertQuery := by
  decide

/-- A statement that returns no error appended exactly one row binding the arguments to
the statement's columns in order. -/
theorem saveDatabase_ok (ctx : Context) (db : DB) (cotacao : Cotacao) (now : Nat)
    (storage : Storage) (h : (saveDatabase ctx db cotacao now storage).err = none) :
    (saveDatabase ctx db cotacao now storage).db
      = ⟨db.rows ++ [⟨db.nextId, (columnNames insertQuery).zip (insertArgs cotacao)⟩]⟩ := by
  have hlen : (columnNames insertQuery).length = (insertArgs cotacao).length := by
    rw [insertQuery_columns]
    rfl
  unfold saveDatabase ExecContext execInsert at h ⊢
  cases hf : storage.failure with
  | some err =>
    cases hd : ctx.deadline with
    | none => simp [hf, hd] at h
    | some deadline =>
      by_cases hlt : now + storage.latency < deadline <;> simp [hf, hd, hlt] at h
  | none =>
    cases hd : ctx.deadline with
    | none => simp [hf, hd, hlen]
    | some deadline =>
      by_cases hlt : now + storage.latency < deadline
      · simp [hf, hd, hlt, hlen]
      · simp [hf, hd, hlt] at h

theorem findField_tag (f : Field) : findField f.tag = some f := by
  cases f <;> rfl

theorem get_set (q : Quote) (f g : Field) (s : String) :
    (q.set f s).get g = if g = f then s else q.get g := by
  cases f <;> cases g <;> rfl

/-- String members keyed by tags all decode, each assigning its field in turn. -/
theorem decodeMembers_strings (members : List (Field × String)) (q : Quote) :
    decodeMembers q (members.map (fun m => (m.1.tag, Json.str m.2)))
      = .ok (members.foldl (fun acc m => acc.set m.1 m.2) q) := by
  induction members generalizing q with
  | nil => rfl
  | cons m rest ih =>
    simp only [List.map_cons, List.foldl_cons, decodeMembers, decodeMember, findField_tag,
      decodeString]
    exact ih _

/-- After assigning the members in turn a field holds the value of its last member, or
what it held before. -/
theorem foldl_set_get (members : List (Field × String)) (q : Quote) (f : Field) :
    (members.foldl (fun acc m => acc.set m.1 m.2) q).get f
      = (members.reverse.lookup f).getD (q.get f) := by
  induction members generalizing q with
  | nil => rfl
  | cons m rest ih =>
    rw [List.foldl_cons, ih, List.reverse_cons, List.lookup_append]
    cases hl : List.lookup f rest.reverse with
    | some v => simp
    | none =>
      obtain ⟨k, v⟩ := m
      simp only [Option.none_or, Option.getD_none, get_set, List.lookup_cons, List.lookup_nil]
      by_cases hk : f = k
      · subst hk
        simp
      · have hb : (f == k) = false := by simpa using hk
        simp [hk, hb]

theorem decodeCotacao_quoteBody (members : List (Field × String)) :
    decodeCotacao (quoteBody members)
      = .ok ⟨members.foldl (fun acc m => acc.set m.1 m.2) Cotacao.zero.USDBRL⟩ := by
  have hkey : ("USDBRL" == "USDBRL" || equalFold "USDBRL" "USDBRL") = true := by decide
  simp only [quoteBody, decodeCotacao, decodeOuter, decodeQuote, decodeMembers_strings]
  rw [if_pos hkey]

theorem lookup_of_mem_nodup (l : List (Field × String)) (k : Field) (v : String)
    (hn : (l.map Prod.fst).Nodup) (hm : (k, v) ∈ l) : l.lookup k = some v := by
  induction l with
  | nil => cases hm
  | cons m rest ih =>
    obtain ⟨k', v'⟩ := m
    rw [List.map_cons, List.nodup_cons] at hn
    rcases List.mem_cons.1 hm with heq | hrest
    · injection heq with h1 h2
      subst h1
      subst h2
      simp
    · have hne : k ≠ k' := by
        intro hkk
        subst hkk
        exact hn.1 (List.mem_map.2 ⟨(k, v), hrest, rfl⟩)
      have hb : (k == k') = false := by simpa using hne
      rw [List.lookup_cons, hb]
      exact ih hn.2 hrest

theorem lookup_of_not_mem (l : List (Field × String)) (k : Field)
    (h : ∀ m ∈ l, m.1 ≠ k) : l.lookup k = none := by
  induction l with
  | nil => rfl
  | cons m rest ih =>
    obtain ⟨k', v'⟩ := m
    have hne : k' ≠ k := h (k', v') (List.mem_cons_self _ _)
    have hb : (k == k') = false := by simpa using fun hkk : k = k' => hne hkk.symm
    rw [List.lookup_cons, hb]
    exact ih (fun m hm => h m (List.mem_cons_of_mem _ hm))

end Server

namespace Client

end Client

open Server

/-! ## The claims -/

/-- C1: for every quote that `getDolarPrice` returns and every behaviour of the storage,
`handleCotacao` writes status 200, the header `Content-Type: application/json`, and as
body the JSON encoding of exactly `cotacao.USDBRL.Bid`. -/
theorem handleCotacao_returns_bid (r : Request) (db : DB) (now : Nat) (world : World)
    (cotacao : Cotacao)
    (h : (getDolarPrice (r.ctx.WithTimeout now clientTimeout) now world).result = .ok cotacao)
    (storage : Storage) :
    (handleCotacao ResponseWriter.fresh r db now { world with storage := storage }).w
      = ⟨[("Content-Type", "application/json")], some StatusOK, Encode cotacao.USDBRL.Bid⟩ := by
  rw [handleCotacao_ok ResponseWriter.fresh r db now { world with storage := storage } cotacao
    (by rw [getDolarPrice_storage]; exact h)]
  exact fresh_success_writer _

/-- C1, the spec's scenario: an upstream bid of 5.43, with a storage that fails, yields
the body `"5.43"` (and the encoder's newline). -/
theorem handleCotacao_returns_bid_witness :
    (getDolarPrice (plainRequest.ctx.WithTimeout 0 clientTimeout) 0
        (sampleWorld sampleBody 50 2 none)).result = .ok sampleCotacao
      ∧ (handleCotacao ResponseWriter.fresh plainRequest ⟨[]⟩ 0
          (sampleWorld sampleBody 50 2 (some "disk full"))).w
        = ⟨[("Content-Type", "application/json")], some 200, "\"5.43\"\n"⟩ :=
  ⟨rfl, handleCotacao_returns_bid plainRequest ⟨[]⟩ 0 (sampleWorld sampleBody 50 2 none)
    sampleCotacao rfl ⟨2 * Millisecond, some "disk full"⟩⟩

/-- C2: after a successful fetch the response (status, headers, body) is the same whatever
the storage does, and the error of `saveDatabase` goes to the log and nowhere else: the
log holds one line when it failed and none when it succeeded. -/
theorem persistence_failure_contained (r : Request) (db : DB) (now : Nat) (world : World)
    (cotacao : Cotacao)
    (h : (getDolarPrice (r.ctx.WithTimeout now clientTimeout) now world).result = .ok cotacao)
    (failing succeeding : Storage) :
    (handleCotacao ResponseWriter.fresh r db now { world with storage := failing }).w
        = (handleCotacao ResponseWriter.fresh r db now { world with storage := succeeding }).w
      ∧ ∀ storage : Storage,
          (handleCotacao ResponseWriter.fresh r db now { world with storage := storage }).log
            = (match (saveDatabase (r.ctx.WithTimeout
                  (getDolarPrice (r.ctx.WithTimeout now clientTimeout) now world).finish dbTimeout)
                  db cotacao (getDolarPrice (r.ctx.WithTimeout now clientTimeout) now world).finish
                  storage).err with
              | some err => ["erro ao salvar cotação no banco de dados: " ++ err ++ "\n"]
              | none => []) := by
  refine ⟨?_, ?_⟩
  · rw [handleCotacao_ok ResponseWriter.fresh r db now { world with storage := failing } cotacao
        (by rw [getDolarPrice_storage]; exact h),
      handleCotacao_ok ResponseWriter.fresh r db now { world with storage := succeeding } cotacao
        (by rw [getDolarPrice_storage]; exact h)]
  · intro storage
    rw [handleCotacao_ok ResponseWriter.fresh r db now { world with storage := storage } cotacao
        (by rw [getDolarPrice_storage]; exact h)]
    simp only [getDolarPrice_storage]

/-- C2 on the sample quote: a failing and a succeeding storage give the same response;
the failing one leaves one log line and no row, the succeeding one no log line and a
row. -/
theorem persistence_failure_contained_witness :
    (getDolarPrice (plainRequest.ctx.WithTimeout 0 clientTimeout) 0
        (sampleWorld sampleBody 50 2 none)).result = .ok sampleCotacao
      ∧ (handleCotacao ResponseWriter.fresh plainRequest ⟨[]⟩ 0
          (sampleWorld sampleBody 50 2 (some "disk full"))).w
        = (handleCotacao ResponseWriter.fresh plainRequest ⟨[]⟩ 0
          (sampleWorld sampleBody 50 2 none)).w
      ∧ (handleCotacao ResponseWriter.fresh plainRequest ⟨[]⟩ 0
          (sampleWorld sampleBody 50 2 (some "disk full"))).log.length = 1
      ∧ (handleCotacao ResponseWriter.fresh plainRequest ⟨[]⟩ 0
          (sampleWorld sampleBody 50 2 none)).log = [] :=
  ⟨rfl, (persistence_failure_contained plainRequest ⟨[]⟩ 0 (sampleWorld sampleBody 50 2 none)
    sampleCotacao rfl ⟨2 * Millisecond, some "disk full"⟩ ⟨2 * Millisecond, none⟩).1, rfl, rfl⟩

/-- C3: whenever `getDolarPrice` returns an error, `handleCotacao` answers status 500 with
the message `Erro ao obter cotação` as the whole body, issues no call beyond those of
the one `getDolarPrice` (at most one upstream request), never a storage statement, and
leaves the database as it was. -/
theorem handleCotacao_fetch_failure (r : Request) (db : DB) (now : Nat) (world : World)
    (err : String)
    (h : (getDolarPrice (r.ctx.WithTimeout now clientTimeout) now world).result = .error err) :
    (handleCotacao ResponseWriter.fresh r db now world).w
        = ⟨[("Content-Type", "text/plain; charset=utf-8"), ("X-Content-Type-Options", "nosniff")],
            some StatusInternalServerError, "Erro ao obter cotação\n"⟩
      ∧ (handleCotacao ResponseWriter.fresh r db now world).db = db
      ∧ (handleCotacao ResponseWriter.fresh r db now world).calls
          = (getDolarPrice (r.ctx.WithTimeout now clientTimeout) now world).calls
      ∧ (handleCotacao ResponseWriter.fresh r db now world).calls.length ≤ 1
      ∧ (∀ call ∈ (handleCotacao ResponseWriter.fresh r db now world).calls,
          call.isExec = false)
      ∧ (handleCotacao ResponseWriter.fresh r db now world).log
          = ["erro ao obter cotação: " ++ err ++ "\n"] := by
  rw [handleCotacao_error ResponseWriter.fresh r db now world err h]
  refine ⟨fresh_error_writer _ _, rfl, rfl, ?_, ?_, rfl⟩
  · rcases getDolarPrice_calls (r.ctx.WithTimeout now clientTimeout) now world with
      ⟨-, hc⟩ | ⟨-, hc⟩ <;> simp [hc]
  · intro call hmem
    rcases getDolarPrice_calls (r.ctx.WithTimeout now clientTimeout) now world with
      ⟨-, hc⟩ | ⟨-, hc⟩
    · simp [hc] at hmem
    · simp only [hc, List.mem_singleton] at hmem
      subst hmem
      rfl

/-- C3, the spec's scenario: upstream needs 250ms, more than the fetch budget; the
handler answers 500 at 200ms with one upstream request and no row. -/
theorem handleCotacao_fetch_failure_witness :
    (getDolarPrice (plainRequest.ctx.WithTimeout 0 clientTimeout) 0
        (sampleWorld sampleBody 250 2 none)).result
        = .error "erro ao realizar requisição HTTP: context deadline exceeded"
      ∧ (handleCotacao ResponseWriter.fresh plainRequest ⟨[]⟩ 0
          (sampleWorld sampleBody 250 2 none)).w.status = some 500
      ∧ (handleCotacao ResponseWriter.fresh plainRequest ⟨[]⟩ 0
          (sampleWorld sampleBody 250 2 none)).db = ⟨[]⟩ :=
  ⟨rfl, congrArg ResponseWriter.status (handleCotacao_fetch_failure plainRequest ⟨[]⟩ 0
      (sampleWorld sampleBody 250 2 none) _ rfl).1,
    (handleCotacao_fetch_failure plainRequest ⟨[]⟩ 0
      (sampleWorld sampleBody 250 2 none) _ rfl).2.1⟩

/-- C8 as stated fails: the fetch budget is not fifty times the persistence budget. -/
theorem timeout_magnitudes_as_claimed_fail :
    ¬ (Client.clientTimeout = 300 * Millisecond ∧ Server.clientTimeout = 300 * Millisecond
      ∧ 3 * apiTimeout = 2 * Server.clientTimeout ∧ apiTimeout = 50 * dbTimeout) := by
  decide

/-- C8, amended: the client's outer budget and the server's overall budget are both
300ms, the fetch budget is two thirds of it, and the persistence budget is twenty times
tighter than the fetch budget. -/
theorem timeout_magnitudes :
    Client.clientTimeout = 300 * Millisecond ∧ Server.clientTimeout = 300 * Millisecond
      ∧ 3 * apiTimeout = 2 * Server.clientTimeout ∧ apiTimeout = 20 * dbTimeout
      ∧ apiTimeout = 200 * Millisecond ∧ dbTimeout = 10 * Millisecond := by
  decide

/-- C4: a `saveDatabase` that returns no error has appended exactly one row, which holds
each of the eleven fields of the quote, unchanged, under the column of the same name,
in the order of the statement's column list (the table's columns after `id`); and the
handler hands `saveDatabase` the very quote whose bid it writes to the response. -/
theorem saveDatabase_row_matches_quote (ctx : Context) (db : DB) (cotacao : Cotacao)
    (now : Nat) (storage : Storage)
    (h : (saveDatabase ctx db cotacao now storage).err = none) :
    (saveDatabase ctx db cotacao now storage).db.rows
        = db.rows ++ [⟨db.nextId,
            [("code", cotacao.USDBRL.Code), ("codein", cotacao.USDBRL.Codein),
              ("name", cotacao.USDBRL.Name), ("high", cotacao.USDBRL.High),
              ("low", cotacao.USDBRL.Low), ("varBid", cotacao.USDBRL.VarBid),
              ("pctChange", cotacao.USDBRL.PctChange), ("bid", cotacao.USDBRL.Bid),
              ("ask", cotacao.USDBRL.Ask), ("timestamp", cotacao.USDBRL.Timestamp),
              ("create_date", cotacao.USDBRL.CreateDate)]⟩]
      ∧ (∀ f : Field,
          List.lookup f.tag ((columnNames insertQuery).zip (insertArgs cotacao))
            = some (cotacao.USDBRL.get f))
      ∧ columnNames createTable = "id" :: columnNames insertQuery
      ∧ (∀ (r : Request) (start : Nat) (world : World),
          (getDolarPrice (r.ctx.WithTimeout start clientTimeout) start world).result
              = .ok cotacao →
            (handleCotacao ResponseWriter.fresh r db start world).w.body
                = Encode cotacao.USDBRL.Bid
              ∧ ∀ call ∈ (handleCotacao ResponseWriter.fresh r db start world).calls,
                  call.isExec = true →
                    ∃ began deadline ended,
                      call = Call.exec insertQuery (insertArgs cotacao) began deadline ended) := by
  refine ⟨?_, ?_, createTable_columns, ?_⟩
  · rw [saveDatabase_ok ctx db cotacao now storage h, insertQuery_columns]
    rfl
  · intro f
    rw [insertQuery_columns]
    cases f <;> rfl
  · intro r start world hfetch
    rw [handleCotacao_ok ResponseWriter.fresh r db start world cotacao hfetch]
    refine ⟨by rw [fresh_success_writer], ?_⟩
    intro call hmem hexec
    simp only [saveDatabase_calls, List.mem_append, List.mem_singleton] at hmem
    rcases hmem with hget | hsave
    · rcases getDolarPrice_calls (r.ctx.WithTimeout start clientTimeout) start world with
        ⟨-, hc⟩ | ⟨-, hc⟩
      · simp [hc] at hget
      · simp only [hc, List.mem_singleton] at hget
        subst hget
        cases hexec
    · exact ⟨_, _, _, hsave⟩

/-- C4 on the sample quote: the row written for it. -/
theorem saveDatabase_row_matches_quote_witness :
    (saveDatabase ⟨some (60 * Millisecond)⟩ ⟨[]⟩ sampleCotacao (50 * Millisecond)
        ⟨2 * Millisecond, none⟩).err = none
      ∧ (saveDatabase ⟨some (60 * Millisecond)⟩ ⟨[]⟩ sampleCotacao (50 * Millisecond)
        ⟨2 * Millisecond, none⟩).db.rows
        = [⟨1, [("code", "USD"), ("codein", "BRL"), ("name", ""), ("high", ""), ("low", ""),
            ("varBid", ""), ("pctChange", ""), ("bid", "5.43"), ("ask", "5.44"),
            ("timestamp", ""), ("create_date", "")]⟩] :=
  ⟨rfl, (saveDatabase_row_matches_quote ⟨some (60 * Millisecond)⟩ ⟨[]⟩ sampleCotacao
    (50 * Millisecond) ⟨2 * Millisecond, none⟩ rfl).1⟩

/-- C5 as stated fails: an upstream quote without a bid makes `getDolarPrice` succeed with
an empty bid, and the handler answers 200 with the body `""` and writes a row. -/
theorem missing_bid_accepted :
    (getDolarPrice (plainRequest.ctx.WithTimeout 0 clientTimeout) 0
        (sampleWorld noBidBody 50 2 none)).result
        = .ok ⟨⟨"5.44", "", "USD", "", "", "", "", "", "", "", ""⟩⟩
      ∧ (handleCotacao ResponseWriter.fresh plainRequest ⟨[]⟩ 0
          (sampleWorld noBidBody 50 2 none)).w
        = ⟨[("Content-Type", "application/json")], some 200, "\"\"\n"⟩
      ∧ (handleCotacao ResponseWriter.fresh plainRequest ⟨[]⟩ 0
          (sampleWorld noBidBody 50 2 none)).db.rows
        = [⟨1, [("code", "USD"), ("codein", ""), ("name", ""), ("high", ""), ("low", ""),
            ("varBid", ""), ("pctChange", ""), ("bid", ""), ("ask", "5.44"),
            ("timestamp", ""), ("create_date", "")]⟩] :=
  ⟨rfl, rfl, rfl⟩

/-- C5, amended: no field is required.  For an upstream object holding any string members
among the eleven fields, answered in time, `getDolarPrice` succeeds; each field holds
the value of its last member and is empty when it has none, so a bid that is present
once is returned as it is and an absent bid is the empty string; either way the handler
answers 200 with the encoding of that bid and issues the storage statement for the
quote. -/
theorem getDolarPrice_tolerates_missing_fields (r : Request) (db : DB) (now : Nat)
    (world : World) (members : List (Field × String))
    (hn : world.newRequestErr = none)
    (ho : world.upstream.outcome = .response (quoteBody members))
    (ht : now + world.upstream.latency < earliest r.ctx.deadline (now + apiTimeout)) :
    ∃ cotacao,
      (getDolarPrice (r.ctx.WithTimeout now clientTimeout) now world).result = .ok cotacao
        ∧ (∀ f, cotacao.USDBRL.get f = (members.reverse.lookup f).getD "")
        ∧ (∀ bid, (Field.Bid, bid) ∈ members → (members.map Prod.fst).Nodup →
            cotacao.USDBRL.Bid = bid)
        ∧ ((∀ m ∈ members, m.1 ≠ Field.Bid) → cotacao.USDBRL.Bid = "")
        ∧ (handleCotacao ResponseWriter.fresh r db now world).w
            = ⟨[("Content-Type", "application/json")], some StatusOK,
                Encode cotacao.USDBRL.Bid⟩
        ∧ (handleCotacao ResponseWriter.fresh r db now world).calls
            = [Call.get apiURL now (earliest r.ctx.deadline (now + apiTimeout))
                (now + world.upstream.latency),
              Call.exec insertQuery (insertArgs cotacao) (now + world.upstream.latency)
                (some (earliest r.ctx.deadline (now + world.upstream.latency + dbTimeout)))
                (handleCotacao ResponseWriter.fresh r db now world).finish] := by
  have he := earliest_withTimeout r.ctx now clientTimeout apiTimeout apiTimeout_le_clientTimeout
  have hget : ∀ f, (members.foldl (fun acc m => acc.set m.1 m.2) Cotacao.zero.USDBRL).get f
      = (members.reverse.lookup f).getD "" := by
    intro f
    rw [foldl_set_get]
    cases f <;> rfl
  have hres := getDolarPrice_of_response (r.ctx.WithTimeout now clientTimeout) now world
    (quoteBody members) _ hn (by rw [he]; exact ht) ho (decodeCotacao_quoteBody members)
  have hk := getDolarPrice_ok (r.ctx.WithTimeout now clientTimeout) now world _ hres
  refine ⟨_, hres, hget, ?_, ?_, ?_, ?_⟩
  · intro bid hmem hnodup
    have hl : members.reverse.lookup Field.Bid = some bid := by
      apply lookup_of_mem_nodup
      · rw [List.map_reverse]
        exact List.nodup_reverse.2 hnodup
      · exact List.mem_reverse.2 hmem
    have := hget Field.Bid
    rw [hl] at this
    exact this
  · intro hnone
    have hl : members.reverse.lookup Field.Bid = none := by
      apply lookup_of_not_mem
      intro m hm
      exact hnone m (List.mem_reverse.1 hm)
    have := hget Field.Bid
    rw [hl] at this
    exact this
  · rw [handleCotacao_ok ResponseWriter.fresh r db now world _ hres]
    exact fresh_success_writer _
  · have hcalls := hk.2.2.2.2
    rw [he] at hcalls
    have hfin := hk.2.2.2.1
    rw [handleCotacao_ok ResponseWriter.fresh r db now world _ hres]
    simp only [saveDatabase_calls, hcalls, hfin, withTimeout_deadline]
    rfl

/-- C5 on the quote without a bid: the decoded bid is empty and the response is the
encoding of the empty string. -/
theorem getDolarPrice_tolerates_missing_fields_witness :
    (sampleWorld noBidBody 50 2 none).newRequestErr = none
      ∧ (sampleWorld noBidBody 50 2 none).upstream.outcome
          = .response (quoteBody [(Field.Code, "USD"), (Field.Ask, "5.44")])
      ∧ 0 + (sampleWorld noBidBody 50 2 none).upstream.latency
          < earliest plainRequest.ctx.deadline (0 + apiTimeout)
      ∧ ∃ cotacao,
          (getDolarPrice (plainRequest.ctx.WithTimeout 0 clientTimeout) 0
              (sampleWorld noBidBody 50 2 none)).result = .ok cotacao
            ∧ cotacao.USDBRL.Bid = ""
            ∧ (handleCotacao ResponseWriter.fresh plainRequest ⟨[]⟩ 0
                (sampleWorld noBidBody 50 2 none)).w.body = Encode cotacao.USDBRL.Bid :=
  ⟨rfl, rfl, by decide,
    (getDolarPrice_tolerates_missing_fields plainRequest ⟨[]⟩ 0 (sampleWorld noBidBody 50 2 none)
      [(Field.Code, "USD"), (Field.Ask, "5.44")] rfl rfl (by decide)).elim
      (fun cotacao hc => ⟨cotacao, hc.1, hc.2.2.2.1 (by decide),
        congrArg ResponseWriter.body hc.2.2.2.2.1⟩)⟩

end GolangDolar
